import Mathlib

/-!
Shallow embedding of src/api/filter.js, the FilterClient module of the
jira-connector repository, together with theorems checking the
specification claims about it.

The module builds HTTP request descriptors and hands them to an injected
collaborator (jiraClient) exposing buildURL and makeRequest.  Network I/O
is out of scope: each public operation is modelled as a pure function from
its options to the Dispatch record handed to makeRequest (the request
options plus the optional literal success message).
-/

namespace JiraConnector

/-- Opaque pass-through filter payload: the module forwards opts.filter as a
request body without inspecting it (filter.js line 33 and line 72). -/
structure Filter where
  payload : String
deriving DecidableEq, Repr

/-- JavaScript-style string-to-string object used for the query string:
a total lookup function, none meaning the key is absent. -/
def StrMap : Type := String → Option String

/-- The empty object `\x7b\x7d`. -/
def StrMap.empty : StrMap := fun _ => none

/-- JavaScript property assignment obj[k] = v: adds or overwrites key k. -/
def StrMap.set (m : StrMap) (k v : String) : StrMap :=
  fun q => if q = k then some v else m q

/-- Shapes the request body takes in filter.js.  undef is the JavaScript
value undefined (the body key written with an undefined value); emptyObj is
the empty object defaulted at line 180. -/
inductive Body where
  | undef
  | emptyObj
  | filterPayload (f : Filter)
  | columnsObj (columns : Option (List String))
  | scopeObj (scope : Option String)
deriving DecidableEq, Repr

/-- The request options object handed to makeRequest.  body and qs are
Option so that object literals lacking those keys (filter.js lines 129-134)
are distinguished from literals carrying them. -/
structure RequestOptions where
  uri : String
  method : String
  json : Bool
  followAllRedirects : Bool
  body : Option Body
  qs : Option StrMap

/-- The injected collaborator: only its URL builder shapes the descriptors. -/
structure JiraClient where
  buildURL : String → String

/-- What a public operation passes to jiraClient.makeRequest: the request
options and the optional literal success message (third argument). -/
structure Dispatch where
  options : RequestOptions
  successMessage : Option String

/-- The caller-supplied opts record.  Every field the module reads is
optional in JavaScript (undefined when absent). -/
structure Opts where
  filterId : Option Nat
  fields : Option (List String)
  expand : Option (List String)
  filter : Option Filter
  columns : Option (List String)
  scope : Option String

/-- JavaScript string conversion applied by the concatenation
basePath = base plus opts.filterId (filter.js line 178): a number prints
its decimal form, undefined prints the literal text undefined. -/
def jsIdString : Option Nat → String
  | some n => toString n
  | none => "undefined"

/-- The forEach comma join of filter.js lines 184-186, 192-194 and 38-40:
starting from the empty string, append each element followed by a comma. -/
def jsJoinComma (l : List String) : String :=
  l.foldl (fun acc x => acc ++ x ++ ",") ""

/-- JavaScript s.slice(0, -1): every character but the last; the empty
string maps to itself (filter.js lines 187 and 195). -/
def jsSliceDropLast (s : String) : String :=
  ⟨s.data.dropLast⟩

/-- The fields block of buildRequestOptions (filter.js lines 182-188):
when opts.fields is present, even empty, join it and trim the last
character into qs.fields. -/
def addFields (qs : StrMap) : Option (List String) → StrMap
  | some fs => qs.set "fields" (jsSliceDropLast (jsJoinComma fs))
  | none => qs

/-- The expand block of buildRequestOptions (filter.js lines 190-196). -/
def addExpand (qs : StrMap) : Option (List String) → StrMap
  | some es => qs.set "expand" (jsSliceDropLast (jsJoinComma es))
  | none => qs

/-- buildRequestOptions (filter.js lines 177-206): defaults body and qs to
the empty object, serializes opts.fields and opts.expand into qs, and
returns the descriptor for path /filter/\x7bfilterId\x7d plus the suffix. -/
def buildRequestOptions (jc : JiraClient) (opts : Opts) (path : String)
    (method : String) (bodyArg : Option Body) (qsArg : Option StrMap) :
    RequestOptions :=
  { uri := jc.buildURL ("/filter/" ++ jsIdString opts.filterId ++ path)
    method := method
    json := true
    followAllRedirects := true
    body := some (bodyArg.getD Body.emptyObj)
    qs := some (addExpand (addFields (qsArg.getD StrMap.empty) opts.fields) opts.expand) }

/-- The inline expand handling of createFilter (filter.js lines 36-41): the
join is not trimmed, so a trailing comma remains. -/
def createFilterQs : Option (List String) → StrMap
  | some es => StrMap.set StrMap.empty "expand" (jsJoinComma es)
  | none => StrMap.empty

/-- The createFilter body (filter.js line 33): opts.filter as given, the
undefined value when the caller omitted it. -/
def createFilterBody : Option Filter → Body
  | some f => Body.filterPayload f
  | none => Body.undef

/-- createFilter (filter.js lines 26-44). -/
def createFilter (jc : JiraClient) (opts : Opts) : Dispatch :=
  { options :=
      { uri := jc.buildURL "/filter"
        method := "POST"
        json := true
        followAllRedirects := true
        qs := some (createFilterQs opts.expand)
        body := some (createFilterBody opts.filter) }
    successMessage := none }

/-- getFilter (filter.js lines 55-58). -/
def getFilter (jc : JiraClient) (opts : Opts) : Dispatch :=
  { options := buildRequestOptions jc opts "" "GET" none none
    successMessage := none }

/-- updateFilter (filter.js lines 71-74): passes opts.filter as the body
argument, so an absent filter falls back to the empty object default. -/
def updateFilter (jc : JiraClient) (opts : Opts) : Dispatch :=
  { options := buildRequestOptions jc opts "" "PUT" (opts.filter.map Body.filterPayload) none
    successMessage := none }

/-- getFilterColumns (filter.js lines 86-89). -/
def getFilterColumns (jc : JiraClient) (opts : Opts) : Dispatch :=
  { options := buildRequestOptions jc opts "/columns" "GET" none none
    successMessage := none }

/-- setFilterColumns (filter.js lines 102-106): body is the object with the
single key columns, and the literal success message is passed through. -/
def setFilterColumns (jc : JiraClient) (opts : Opts) : Dispatch :=
  { options := buildRequestOptions jc opts "/columns" "PUT"
      (some (Body.columnsObj opts.columns)) none
    successMessage := some "Columns Updated" }

/-- resetFilterColumns (filter.js lines 117-120). -/
def resetFilterColumns (jc : JiraClient) (opts : Opts) : Dispatch :=
  { options := buildRequestOptions jc opts "/columns" "DELETE" none none
    successMessage := some "Columns Reset" }

/-- getDefaultShareScore (filter.js lines 128-137).  The source spells the
member name with Score, not Scope; the options literal has neither a body
nor a qs key, and opts is ignored. -/
def getDefaultShareScore (jc : JiraClient) (opts : Opts) : Dispatch :=
  { options :=
      { uri := jc.buildURL "/filter/defaultShareScope"
        method := "GET"
        json := true
        followAllRedirects := true
        body := none
        qs := none }
    successMessage := none }

/-- setDefaultShareScope (filter.js lines 148-159). -/
def setDefaultShareScope (jc : JiraClient) (opts : Opts) : Dispatch :=
  { options :=
      { uri := jc.buildURL "/filter/defaultShareScope"
        method := "PUT"
        json := true
        followAllRedirects := true
        body := some (Body.scopeObj opts.scope)
        qs := none }
    successMessage := none }

/-- The member names the FilterClient constructor assigns on this
(filter.js lines 26, 55, 71, 86, 102, 117, 128, 148), in source order. -/
def exposedOperations : List String :=
  ["createFilter", "getFilter", "updateFilter", "getFilterColumns",
   "setFilterColumns", "resetFilterColumns", "getDefaultShareScore",
   "setDefaultShareScope"]

/-- Lookup of a query string key on a descriptor; none when the descriptor
has no qs object or the key is absent. -/
def qsGet (r : RequestOptions) (k : String) : Option String :=
  match r.qs with
  | some m => m k
  | none => none

/-- JavaScript s.split with separator comma, as used by the round-trip
claims: the empty string splits to the one-element list holding the empty
string. -/
def jsSplitComma (s : String) : List String :=
  (s.data.splitOn ',').map fun l => ⟨l⟩

/-- Identity URL builder used to instantiate witnesses. -/
def jcId : JiraClient := ⟨fun p => p⟩

/-- Options record with every field absent. -/
def noOpts : Opts := ⟨none, none, none, none, none, none⟩

/-- Character list of the comma literal. -/
theorem comma_data : ("," : String).data = [','] := rfl

/-- Character list of the empty string literal. -/
theorem empty_data : ("" : String).data = [] := rfl

/-- Comma-terminated concatenation of character lists: the shape the
forEach joins of filter.js produce before any trimming. -/
def joinCL : List (List Char) → List Char
  | [] => []
  | l :: ls => l ++ ',' :: joinCL ls

theorem foldl_join_data (L : List String) (acc : String) :
    (L.foldl (fun a x => a ++ x ++ ",") acc).data =
      acc.data ++ joinCL (L.map String.data) := by
  induction L generalizing acc with
  | nil => simp [joinCL]
  | cons x xs ih =>
    simp [ih, joinCL, String.data_append, comma_data, List.append_assoc]

theorem jsJoinComma_data (L : List String) :
    (jsJoinComma L).data = joinCL (L.map String.data) := by
  have h := foldl_join_data L ""
  rw [empty_data] at h
  simpa [jsJoinComma] using h

theorem joinCL_cons_getLast? (l : List Char) (ls : List (List Char)) :
    (joinCL (l :: ls)).getLast? = some ',' := by
  induction ls generalizing l with
  | nil => simp [joinCL]
  | cons l₂ ls₂ ih =>
    have h2 := ih l₂
    show (l ++ ',' :: joinCL (l₂ :: ls₂)).getLast? = some ','
    rw [show ',' :: joinCL (l₂ :: ls₂) = [','] ++ joinCL (l₂ :: ls₂) from rfl,
      List.getLast?_append, List.getLast?_append, h2]
    rfl

theorem intercalate_comma_singleton (a : List Char) :
    List.intercalate [','] [a] = a := by
  simp [List.intercalate, List.intersperse_singleton]

theorem intercalate_comma_cons₂ (a b : List Char) (t : List (List Char)) :
    List.intercalate [','] (a :: b :: t) =
      a ++ ',' :: List.intercalate [','] (b :: t) := by
  simp [List.intercalate, List.intersperse_cons_cons]

theorem joinCL_eq_intercalate_concat (l : List Char) (ls : List (List Char)) :
    joinCL (l :: ls) = List.intercalate [','] (l :: ls) ++ [','] := by
  induction ls generalizing l with
  | nil => simp [joinCL, intercalate_comma_singleton]
  | cons l₂ ls₂ ih =>
    show l ++ ',' :: joinCL (l₂ :: ls₂) = _
    rw [ih l₂, intercalate_comma_cons₂]
    simp

theorem joinCL_dropLast (l : List Char) (ls : List (List Char)) :
    (joinCL (l :: ls)).dropLast = List.intercalate [','] (l :: ls) := by
  rw [joinCL_eq_intercalate_concat, List.dropLast_concat]

/-- Character-level value stored into qs.fields and qs.expand by
buildRequestOptions: the trimmed join is the comma intercalation of the
elements. -/
theorem fieldsValue_data (L : List String) (h : L ≠ []) :
    (jsSliceDropLast (jsJoinComma L)).data =
      List.intercalate [','] (L.map String.data) := by
  cases L with
  | nil => exact absurd rfl h
  | cons x xs =>
    show ((jsJoinComma (x :: xs)).data).dropLast = _
    rw [jsJoinComma_data]
    exact joinCL_dropLast _ _

/-- The literal path argument of getFilter with filterId 42 resolves to
/filter/42. -/
theorem path42_eq : "/filter/" ++ jsIdString (some 42) ++ "" = "/filter/42" := by
  decide

/-- C3: the module exposes no member named getDefaultShareScope; the getter
is spelled getDefaultShareScore, and that operation, whatever its input
options, hands makeRequest a GET descriptor whose uri is buildURL applied
to /filter/defaultShareScope, with no body, no qs and no success message. -/
theorem C3_default_share_scope_getter :
    "getDefaultShareScope" ∉ exposedOperations ∧
    "getDefaultShareScore" ∈ exposedOperations ∧
    ∀ (jc : JiraClient) (opts : Opts),
      getDefaultShareScore jc opts =
        ⟨⟨jc.buildURL "/filter/defaultShareScope", "GET", true, true, none, none⟩, none⟩ :=
  ⟨by decide, by decide, fun jc opts => rfl⟩

/-- C4: getFilter with filterId 42 and nothing else builds a descriptor
whose uri is buildURL of /filter/42 (hence, for a URL builder that appends
the relative path to a base, a uri ending in /filter/42), method GET, and
the empty object as body. -/
theorem C4_getFilter_42 :
    (∀ jc : JiraClient,
      (getFilter jc ⟨some 42, none, none, none, none, none⟩).options.uri =
        jc.buildURL "/filter/42" ∧
      (getFilter jc ⟨some 42, none, none, none, none, none⟩).options.method = "GET" ∧
      (getFilter jc ⟨some 42, none, none, none, none, none⟩).options.body =
        some Body.emptyObj) ∧
    ∀ base : String,
      (getFilter ⟨fun p => base ++ p⟩
          ⟨some 42, none, none, none, none, none⟩).options.uri =
        base ++ "/filter/42" :=
  ⟨fun jc => ⟨congrArg jc.buildURL path42_eq, rfl, rfl⟩,
   fun base => congrArg (fun s => base ++ s) path42_eq⟩

/-- C5: for every filterId and columns list, setFilterColumns builds a PUT
descriptor to /filter/filterId/columns whose body is the object with the
single key columns holding opts.columns, passing the literal message
Columns Updated; resetFilterColumns builds a DELETE descriptor to the same
path, passing the literal message Columns Reset. -/
theorem C5_columns_operations (jc : JiraClient) (fid : Nat) (cols : List String) :
    (setFilterColumns jc ⟨some fid, none, none, none, some cols, none⟩).options.uri =
        jc.buildURL ("/filter/" ++ toString fid ++ "/columns") ∧
    (setFilterColumns jc ⟨some fid, none, none, none, some cols, none⟩).options.method =
        "PUT" ∧
    (setFilterColumns jc ⟨some fid, none, none, none, some cols, none⟩).options.body =
        some (Body.columnsObj (some cols)) ∧
    (setFilterColumns jc ⟨some fid, none, none, none, some cols, none⟩).successMessage =
        some "Columns Updated" ∧
    (resetFilterColumns jc ⟨some fid, none, none, none, some cols, none⟩).options.uri =
        jc.buildURL ("/filter/" ++ toString fid ++ "/columns") ∧
    (resetFilterColumns jc ⟨some fid, none, none, none, some cols, none⟩).options.method =
        "DELETE" ∧
    (resetFilterColumns jc ⟨some fid, none, none, none, some cols, none⟩).successMessage =
        some "Columns Reset" :=
  ⟨rfl, rfl, rfl, rfl, rfl, rfl, rfl⟩

/-- C7: every descriptor built by a public operation of the module follows
all redirects and is marked json. -/
theorem C7_redirects_json (jc : JiraClient) (opts : Opts) :
    ((createFilter jc opts).options.followAllRedirects = true ∧
      (createFilter jc opts).options.json = true) ∧
    ((getFilter jc opts).options.followAllRedirects = true ∧
      (getFilter jc opts).options.json = true) ∧
    ((updateFilter jc opts).options.followAllRedirects = true ∧
      (updateFilter jc opts).options.json = true) ∧
    ((getFilterColumns jc opts).options.followAllRedirects = true ∧
      (getFilterColumns jc opts).options.json = true) ∧
    ((setFilterColumns jc opts).options.followAllRedirects = true ∧
      (setFilterColumns jc opts).options.json = true) ∧
    ((resetFilterColumns jc opts).options.followAllRedirects = true ∧
      (resetFilterColumns jc opts).options.json = true) ∧
    ((getDefaultShareScore jc opts).options.followAllRedirects = true ∧
      (getDefaultShareScore jc opts).options.json = true) ∧
    ((setDefaultShareScope jc opts).options.followAllRedirects = true ∧
      (setDefaultShareScope jc opts).options.json = true) :=
  ⟨⟨rfl, rfl⟩, ⟨rfl, rfl⟩, ⟨rfl, rfl⟩, ⟨rfl, rfl⟩,
   ⟨rfl, rfl⟩, ⟨rfl, rfl⟩, ⟨rfl, rfl⟩, ⟨rfl, rfl⟩⟩

/-- C9: an empty fields or expand list still puts the key into the query
string, with the empty string as its value, both in buildRequestOptions
and in the inline expand handling of createFilter. -/
theorem C9_empty_lists (jc : JiraClient) (fid : Option Nat) :
    qsGet (buildRequestOptions jc ⟨fid, some [], some [], none, none, none⟩
        "" "GET" none none) "fields" = some "" ∧
    qsGet (buildRequestOptions jc ⟨fid, some [], some [], none, none, none⟩
        "" "GET" none none) "expand" = some "" ∧
    qsGet (createFilter jc ⟨none, none, some [], none, none, none⟩).options
        "expand" = some "" :=
  ⟨rfl, rfl, rfl⟩

/-- C6 counterexample: createFilter with no opts.filter hands makeRequest a
body holding the undefined value, not the empty object, and the descriptor
of getDefaultShareScore carries no body key at all. -/
theorem C6_counterexample :
    (createFilter jcId noOpts).options.body ≠ some Body.emptyObj ∧
    (getDefaultShareScore jcId noOpts).options.body ≠ some Body.emptyObj := by
  decide

/-- C6 amended: the operations routed through buildRequestOptions default a
missing body to the empty object; createFilter without opts.filter instead
sets body to the undefined value, and the getDefaultShareScore descriptor
has no body field. -/
theorem C6_body_default (jc : JiraClient) (opts : Opts) (h : opts.filter = none) :
    (getFilter jc opts).options.body = some Body.emptyObj ∧
    (getFilterColumns jc opts).options.body = some Body.emptyObj ∧
    (resetFilterColumns jc opts).options.body = some Body.emptyObj ∧
    (updateFilter jc opts).options.body = some Body.emptyObj ∧
    (createFilter jc opts).options.body = some Body.undef ∧
    (getDefaultShareScore jc opts).options.body = none := by
  refine ⟨rfl, rfl, rfl, ?_, ?_, rfl⟩
  · simp [updateFilter, buildRequestOptions, h]
  · simp [createFilter, createFilterBody, h]

/-- C6 witness: the amended statement at the identity client and all-absent
options. -/
theorem C6_body_default_witness :
    (getFilter jcId noOpts).options.body = some Body.emptyObj ∧
    (getFilterColumns jcId noOpts).options.body = some Body.emptyObj ∧
    (resetFilterColumns jcId noOpts).options.body = some Body.emptyObj ∧
    (updateFilter jcId noOpts).options.body = some Body.emptyObj ∧
    (createFilter jcId noOpts).options.body = some Body.undef ∧
    (getDefaultShareScore jcId noOpts).options.body = none :=
  C6_body_default jcId noOpts rfl

/-- C8: with filterId absent, every operation routed through
buildRequestOptions still produces a descriptor, whose path carries the
literal text undefined where the identifier would stand, and the dispatch
reaches the transport collaborator unchanged. -/
theorem C8_undefined_filterId (jc : JiraClient) (opts : Opts)
    (h : opts.filterId = none) :
    (getFilter jc opts).options.uri = jc.buildURL "/filter/undefined" ∧
    (updateFilter jc opts).options.uri = jc.buildURL "/filter/undefined" ∧
    (getFilterColumns jc opts).options.uri = jc.buildURL "/filter/undefined/columns" ∧
    (setFilterColumns jc opts).options.uri = jc.buildURL "/filter/undefined/columns" ∧
    (resetFilterColumns jc opts).options.uri = jc.buildURL "/filter/undefined/columns" := by
  simp only [getFilter, updateFilter, getFilterColumns, setFilterColumns,
    resetFilterColumns, buildRequestOptions, h, jsIdString]
  refine ⟨congrArg jc.buildURL (by decide), congrArg jc.buildURL (by decide),
    congrArg jc.buildURL (by decide), congrArg jc.buildURL (by decide),
    congrArg jc.buildURL (by decide)⟩

/-- C8 witness: the undefined-path statement at the identity client and
all-absent options. -/
theorem C8_undefined_filterId_witness :
    (getFilter jcId noOpts).options.uri = jcId.buildURL "/filter/undefined" ∧
    (updateFilter jcId noOpts).options.uri = jcId.buildURL "/filter/undefined" ∧
    (getFilterColumns jcId noOpts).options.uri = jcId.buildURL "/filter/undefined/columns" ∧
    (setFilterColumns jcId noOpts).options.uri = jcId.buildURL "/filter/undefined/columns" ∧
    (resetFilterColumns jcId noOpts).options.uri = jcId.buildURL "/filter/undefined/columns" :=
  C8_undefined_filterId jcId noOpts rfl

/-- C10: buildRequestOptions preserves every caller-supplied query string
entry whose key is neither fields nor expand: the returned descriptor
answers such lookups exactly as the given qs object does. -/
theorem C10_qs_frame (jc : JiraClient) (opts : Opts) (path method : String)
    (bodyArg : Option Body) (qs : StrMap) (k : String)
    (hf : k ≠ "fields") (he : k ≠ "expand") :
    qsGet (buildRequestOptions jc opts path method bodyArg (some qs)) k = qs k := by
  simp only [qsGet, buildRequestOptions, Option.getD_some]
  cases hfs : opts.fields <;> cases hex : opts.expand <;>
    simp [addFields, addExpand, StrMap.set, hf, he]

/-- C10 witness: a maxResults entry survives the builder untouched. -/
theorem C10_qs_frame_witness :
    qsGet (buildRequestOptions jcId noOpts "" "GET" none
        (some (StrMap.set StrMap.empty "maxResults" "10"))) "maxResults" =
      StrMap.set StrMap.empty "maxResults" "10" "maxResults" :=
  C10_qs_frame jcId noOpts "" "GET" none
    (StrMap.set StrMap.empty "maxResults" "10") "maxResults"
    (by decide) (by decide)

/-- C2: for a non-empty expand list, the inline handling of createFilter
stores the raw join, whose last character is a comma, while
buildRequestOptions stores the join with its last character sliced away,
so that appending a comma to the shared-helper value recovers the raw
join: the helper removed exactly the trailing comma. -/
theorem C2_trailing_comma (jc : JiraClient) (fid : Option Nat)
    (path method : String) (L : List String) (hne : L ≠ []) :
    qsGet (createFilter jc ⟨none, none, some L, none, none, none⟩).options
        "expand" = some (jsJoinComma L) ∧
    (jsJoinComma L).data.getLast? = some ',' ∧
    qsGet (buildRequestOptions jc ⟨fid, none, some L, none, none, none⟩
        path method none none) "expand" =
      some (jsSliceDropLast (jsJoinComma L)) ∧
    jsSliceDropLast (jsJoinComma L) ++ "," = jsJoinComma L := by
  have hlast : (jsJoinComma L).data.getLast? = some ',' := by
    cases L with
    | nil => exact absurd rfl hne
    | cons x xs =>
      rw [jsJoinComma_data]
      exact joinCL_cons_getLast? _ _
  refine ⟨rfl, hlast, rfl, ?_⟩
  apply String.ext
  rw [String.data_append, comma_data]
  show (jsJoinComma L).data.dropLast ++ [','] = (jsJoinComma L).data
  exact List.dropLast_append_getLast? ',' (Option.mem_def.mpr hlast)

/-- C2 witness: the trailing-comma contrast at the one-element expand list
holding sharedUsers. -/
theorem C2_trailing_comma_witness :
    qsGet (createFilter jcId
        ⟨none, none, some ["sharedUsers"], none, none, none⟩).options
        "expand" = some (jsJoinComma ["sharedUsers"]) ∧
    (jsJoinComma ["sharedUsers"]).data.getLast? = some ',' ∧
    qsGet (buildRequestOptions jcId
        ⟨none, none, some ["sharedUsers"], none, none, none⟩
        "" "GET" none none) "expand" =
      some (jsSliceDropLast (jsJoinComma ["sharedUsers"])) ∧
    jsSliceDropLast (jsJoinComma ["sharedUsers"]) ++ "," =
      jsJoinComma ["sharedUsers"] :=
  C2_trailing_comma jcId none "" "GET" ["sharedUsers"] (by decide)

theorem intercalate_comma_cons_ex (a : List Char) (t : List (List Char)) :
    ∃ X, List.intercalate [','] (a :: t) = a ++ X := by
  cases t with
  | nil => exact ⟨[], by rw [intercalate_comma_singleton, List.append_nil]⟩
  | cons b t' =>
    exact ⟨',' :: List.intercalate [','] (b :: t'), intercalate_comma_cons₂ a b t'⟩

theorem intercalate_comma_head? (a : List Char) (t : List (List Char)) (c : Char)
    (hc : a.head? = some c) :
    (List.intercalate [','] (a :: t)).head? = some c := by
  obtain ⟨X, hX⟩ := intercalate_comma_cons_ex a t
  rw [hX, List.head?_append, hc]
  rfl

theorem intercalate_comma_getLast?_ne :
    ∀ ls : List (List Char), ls ≠ [] → (∀ l ∈ ls, l ≠ [] ∧ (',' : Char) ∉ l) →
      (List.intercalate [','] ls).getLast? ≠ some ',' := by
  intro ls
  induction ls with
  | nil => exact fun h _ => absurd rfl h
  | cons a t ih =>
    intro _ hall
    cases t with
    | nil =>
      rw [intercalate_comma_singleton]
      intro hc
      exact (hall a (by simp)).2 (List.mem_of_getLast?_eq_some hc)
    | cons b t' =>
      have h2 := ih (by simp) (fun l hl => hall l (List.mem_cons_of_mem a hl))
      have hXne : List.intercalate [','] (b :: t') ≠ [] := by
        obtain ⟨X, hX⟩ := intercalate_comma_cons_ex b t'
        rw [hX]
        have hb := (hall b (by simp)).1
        cases b with
        | nil => exact absurd rfl hb
        | cons c b' => simp
      obtain ⟨d, hd⟩ :=
        Option.isSome_iff_exists.mp (List.getLast?_isSome.mpr hXne)
      rw [intercalate_comma_cons₂,
        show ',' :: List.intercalate [','] (b :: t') =
          [','] ++ List.intercalate [','] (b :: t') from rfl,
        List.getLast?_append, List.getLast?_append, hd, Option.or_some,
        Option.or_some]
      intro hcon
      injection hcon with hdc
      exact h2 (by rw [hd, hdc])

/-- C1 counterexample: the list with elements a and the empty string is
non-empty and comma-free, yet the fields value buildRequestOptions stores
for it ends in a comma and its comma split has an empty segment. -/
theorem C1_counterexample :
    qsGet (buildRequestOptions jcId
        ⟨some 1, some ["a", ""], none, none, none, none⟩ "" "GET" none none)
        "fields" = some "a," ∧
    (∀ x ∈ (["a", ""] : List String), (',' : Char) ∉ x.data) ∧
    (["a", ""] : List String) ≠ [] ∧
    ¬ (("a," : String).data.getLast? ≠ some ',' ∧
        "" ∉ jsSplitComma "a,") := by
  decide

/-- C1 amended: for a non-empty list of non-empty strings without embedded
commas, the value buildRequestOptions serializes into qs.fields and
qs.expand splits on the comma back to the list exactly, has neither a
leading nor a trailing comma, and its split has no empty segment. -/
theorem C1_roundtrip_amended (jc : JiraClient) (fid : Option Nat)
    (path method : String) (L : List String) (hne : L ≠ [])
    (hclean : ∀ x ∈ L, x ≠ "" ∧ (',' : Char) ∉ x.data) :
    qsGet (buildRequestOptions jc ⟨fid, some L, some L, none, none, none⟩
        path method none none) "fields" =
      some (jsSliceDropLast (jsJoinComma L)) ∧
    qsGet (buildRequestOptions jc ⟨fid, some L, some L, none, none, none⟩
        path method none none) "expand" =
      some (jsSliceDropLast (jsJoinComma L)) ∧
    jsSplitComma (jsSliceDropLast (jsJoinComma L)) = L ∧
    (jsSliceDropLast (jsJoinComma L)).data.head? ≠ some ',' ∧
    (jsSliceDropLast (jsJoinComma L)).data.getLast? ≠ some ',' ∧
    "" ∉ jsSplitComma (jsSliceDropLast (jsJoinComma L)) := by
  have hdata : (jsSliceDropLast (jsJoinComma L)).data =
      List.intercalate [','] (L.map String.data) := fieldsValue_data L hne
  have hsplit : jsSplitComma (jsSliceDropLast (jsJoinComma L)) = L := by
    unfold jsSplitComma
    rw [hdata]
    rw [List.splitOn_intercalate (L.map String.data) ','
      (by
        intro l hl
        obtain ⟨x, hx, hlx⟩ := List.mem_map.mp hl
        subst hlx
        exact (hclean x hx).2)
      (by
        cases L with
        | nil => exact absurd rfl hne
        | cons x xs => simp)]
    rw [List.map_map]
    exact List.map_id L
  have hhead : (jsSliceDropLast (jsJoinComma L)).data.head? ≠ some ',' := by
    rw [hdata]
    cases L with
    | nil => exact absurd rfl hne
    | cons x xs =>
      have hx := hclean x (List.mem_cons_self x xs)
      cases hxd : x.data with
      | nil => exact absurd (String.ext hxd) hx.1
      | cons c cs =>
        rw [show (x :: xs).map String.data = x.data :: xs.map String.data
            from rfl,
          intercalate_comma_head? x.data (xs.map String.data) c
            (by rw [hxd]; rfl)]
        intro hcon
        injection hcon with hc
        exact hx.2 (by rw [hxd, ← hc]; exact List.mem_cons_self c cs)
  have hlast : (jsSliceDropLast (jsJoinComma L)).data.getLast? ≠ some ',' := by
    rw [hdata]
    apply intercalate_comma_getLast?_ne
    · cases L with
      | nil => exact absurd rfl hne
      | cons x xs => simp
    · intro l hl
      obtain ⟨x, hx, hlx⟩ := List.mem_map.mp hl
      subst hlx
      exact ⟨fun hnil => (hclean x hx).1 (String.ext hnil), (hclean x hx).2⟩
  refine ⟨rfl, rfl, hsplit, hhead, hlast, ?_⟩
  rw [hsplit]
  intro hmem
  exact (hclean "" hmem).1 rfl

/-- C1 witness: the amended round trip at the two-element list holding a
and b. -/
theorem C1_roundtrip_amended_witness :
    qsGet (buildRequestOptions jcId
        ⟨none, some ["a", "b"], some ["a", "b"], none, none, none⟩
        "" "GET" none none) "fields" =
      some (jsSliceDropLast (jsJoinComma ["a", "b"])) ∧
    qsGet (buildRequestOptions jcId
        ⟨none, some ["a", "b"], some ["a", "b"], none, none, none⟩
        "" "GET" none none) "expand" =
      some (jsSliceDropLast (jsJoinComma ["a", "b"])) ∧
    jsSplitComma (jsSliceDropLast (jsJoinComma ["a", "b"])) = ["a", "b"] ∧
    (jsSliceDropLast (jsJoinComma ["a", "b"])).data.head? ≠ some ',' ∧
    (jsSliceDropLast (jsJoinComma ["a", "b"])).data.getLast? ≠ some ',' ∧
    "" ∉ jsSplitComma (jsSliceDropLast (jsJoinComma ["a", "b"])) :=
  C1_roundtrip_amended jcId none "" "GET" ["a", "b"] (by decide) (by decide)

end JiraConnector
